import Mathlib

/-!
Verification of prepare_coco_real.py (TopoDiffusionNet dataset preparation).

The script counts qualifying object annotations per image, filters images to
a count range, and materializes selected images as center-cropped, resized
JPEG files named with the count as a filename label. We embed each part of
main() as executable Lean definitions and prove the specified properties.
-/

namespace PrepareCoco

/-- One COCO annotation record, as read by the counting loop: the fields
image_id (required), iscrowd (optional, numeric truthiness, default 0) and
area (optional, default 0). Rationals stand in for Python floats. -/
structure AnnotationRecord where
  image_id : Nat
  iscrowd : Option Nat := none
  area : Option ℚ := none
deriving DecidableEq

/-- The filter applied by the counting loop in main (lines 57-62): skip the
record when iscrowd is truthy, skip it when area (default 0) is below
min_area, otherwise it counts. -/
def qualifies (min_area : ℚ) (a : AnnotationRecord) : Bool :=
  if a.iscrowd.getD 0 ≠ 0 then false
  else if a.area.getD 0 < min_area then false
  else true

/-- First-match lookup in an association list, the model of Python dict and
Counter access. -/
def lookupCount : List (Nat × Nat) → Nat → Option Nat
  | [], _ => none
  | (k, v) :: rest, i => if k = i then some v else lookupCount rest i

/-- Counter increment: image_instance_count[image_id] += 1. A present key
has its value bumped, an absent key is inserted with value 1. -/
def addCount : List (Nat × Nat) → Nat → List (Nat × Nat)
  | [], i => [(i, 1)]
  | (k, v) :: rest, i =>
      if k = i then (k, v + 1) :: rest else (k, v) :: addCount rest i

/-- One iteration of the counting loop of main (lines 57-62). -/
def countStep (min_area : ℚ) (m : List (Nat × Nat)) (a : AnnotationRecord) :
    List (Nat × Nat) :=
  if qualifies min_area a then addCount m a.image_id else m

/-- The InstanceCount mapping: the counting loop of main folded over the
annotation stream, starting from an empty Counter. -/
def image_instance_count (min_area : ℚ) (anns : List AnnotationRecord) :
    List (Nat × Nat) :=
  anns.foldl (countStep min_area) []

/-- Value stored for an image id, 0 when absent. -/
def getCount (m : List (Nat × Nat)) (i : Nat) : Nat :=
  (lookupCount m i).getD 0

/-- Whether an image id has an entry in the mapping. -/
def hasId (m : List (Nat × Nat)) (i : Nat) : Bool :=
  (lookupCount m i).isSome

/-- Specification-side predicate: an annotation record belongs to image i,
its iscrowd field is falsy (default false) and its area (default 0) is at
least min_area. -/
def qualifiesFor (min_area : ℚ) (i : Nat) (a : AnnotationRecord) : Bool :=
  decide (a.image_id = i) && decide (a.iscrowd.getD 0 = 0) &&
    decide (min_area ≤ a.area.getD 0)

/-- Number of annotation records of the stream that qualify for image i. -/
def countQualifying (min_area : ℚ) (anns : List AnnotationRecord) (i : Nat) :
    Nat :=
  (anns.filter (qualifiesFor min_area i)).length

lemma qualifies_eq_true_iff (min_area : ℚ) (a : AnnotationRecord) :
    qualifies min_area a = true ↔
      a.iscrowd.getD 0 = 0 ∧ min_area ≤ a.area.getD 0 := by
  unfold qualifies
  split_ifs with h1 h2
  · simp only [false_iff]
    intro h
    exact h1 h.1
  · simp only [false_iff]
    intro h
    exact absurd h.2 (not_le.mpr h2)
  · simp only [true_iff]
    exact ⟨Decidable.not_not.mp h1, not_lt.mp h2⟩

lemma lookupCount_addCount (m : List (Nat × Nat)) (k i : Nat) :
    lookupCount (addCount m k) i =
      if k = i then some ((lookupCount m i).getD 0 + 1)
      else lookupCount m i := by
  induction m with
  | nil =>
      simp [addCount, lookupCount]
  | cons p rest ih =>
      obtain ⟨key, v⟩ := p
      by_cases hk : key = k
      · subst hk
        by_cases hi : key = i <;> simp [addCount, lookupCount, hi]
      · by_cases hi : key = i
        · subst hi
          have hki : ¬ k = key := fun h => hk h.symm
          simp [addCount, lookupCount, hk, hki]
        · simp [addCount, lookupCount, hk, hi, ih]

lemma getCount_addCount (m : List (Nat × Nat)) (k i : Nat) :
    getCount (addCount m k) i =
      getCount m i + (if k = i then 1 else 0) := by
  unfold getCount
  rw [lookupCount_addCount]
  by_cases h : k = i <;> simp [h]

lemma hasId_addCount (m : List (Nat × Nat)) (k i : Nat) :
    hasId (addCount m k) i = (decide (k = i) || hasId m i) := by
  unfold hasId
  rw [lookupCount_addCount]
  by_cases h : k = i <;> simp [h]

lemma getCount_foldl (min_area : ℚ) (anns : List AnnotationRecord)
    (m : List (Nat × Nat)) (i : Nat) :
    getCount (anns.foldl (countStep min_area) m) i =
      getCount m i + countQualifying min_area anns i := by
  induction anns generalizing m with
  | nil =>
      simp [countQualifying]
  | cons a anns ih =>
      rw [List.foldl_cons, ih]
      unfold countQualifying
      rw [List.filter_cons]
      by_cases hq : qualifiesFor min_area i a = true
      · have ha : qualifies min_area a = true := by
          rw [qualifies_eq_true_iff]
          unfold qualifiesFor at hq
          simp only [Bool.and_eq_true, decide_eq_true_eq] at hq
          exact ⟨hq.1.2, hq.2⟩
        have hid : a.image_id = i := by
          unfold qualifiesFor at hq
          simp only [Bool.and_eq_true, decide_eq_true_eq] at hq
          exact hq.1.1
        rw [if_pos hq, List.length_cons]
        unfold countStep
        rw [ha, if_pos rfl, getCount_addCount, hid, if_pos rfl]
        omega
      · rw [if_neg hq]
        unfold countStep
        by_cases ha : qualifies min_area a = true
        · have hid : ¬ a.image_id = i := by
            intro hid
            apply hq
            unfold qualifiesFor
            rw [qualifies_eq_true_iff] at ha
            simp only [Bool.and_eq_true, decide_eq_true_eq]
            exact ⟨⟨hid, ha.1⟩, ha.2⟩
          rw [if_pos ha, getCount_addCount, if_neg hid]
          omega
        · rw [if_neg ha]

lemma hasId_foldl (min_area : ℚ) (anns : List AnnotationRecord)
    (m : List (Nat × Nat)) (i : Nat) :
    hasId (anns.foldl (countStep min_area) m) i = true ↔
      hasId m i = true ∨ 0 < countQualifying min_area anns i := by
  induction anns generalizing m with
  | nil =>
      simp [countQualifying]
  | cons a anns ih =>
      rw [List.foldl_cons, ih]
      unfold countQualifying
      rw [List.filter_cons]
      by_cases hq : qualifiesFor min_area i a = true
      · have ha : qualifies min_area a = true := by
          rw [qualifies_eq_true_iff]
          unfold qualifiesFor at hq
          simp only [Bool.and_eq_true, decide_eq_true_eq] at hq
          exact ⟨hq.1.2, hq.2⟩
        have hid : a.image_id = i := by
          unfold qualifiesFor at hq
          simp only [Bool.and_eq_true, decide_eq_true_eq] at hq
          exact hq.1.1
        rw [if_pos hq, List.length_cons]
        unfold countStep
        rw [ha, if_pos rfl, hasId_addCount, hid]
        simp
      · rw [if_neg hq]
        unfold countStep
        by_cases ha : qualifies min_area a = true
        · have hid : ¬ a.image_id = i := by
            intro hid
            apply hq
            unfold qualifiesFor
            rw [qualifies_eq_true_iff] at ha
            simp only [Bool.and_eq_true, decide_eq_true_eq]
            exact ⟨⟨hid, ha.1⟩, ha.2⟩
          rw [if_pos ha, hasId_addCount]
          simp [hid]
        · rw [if_neg ha]

lemma getCount_image_instance_count (min_area : ℚ)
    (anns : List AnnotationRecord) (i : Nat) :
    getCount (image_instance_count min_area anns) i =
      countQualifying min_area anns i := by
  unfold image_instance_count
  rw [getCount_foldl]
  simp [getCount, lookupCount]

lemma hasId_image_instance_count (min_area : ℚ)
    (anns : List AnnotationRecord) (i : Nat) :
    hasId (image_instance_count min_area anns) i = true ↔
      0 < countQualifying min_area anns i := by
  unfold image_instance_count
  rw [hasId_foldl]
  simp [hasId, lookupCount]

/-- The Range Selector of main (lines 72-76): the dict comprehension keeping
the entries whose count lies in the inclusive range. Bounds are Python ints
and may be negative, counts are the stored values. -/
def selected_images (m : List (Nat × Nat)) (min_count max_count : Int) :
    List (Nat × Nat) :=
  m.filter (fun p =>
    decide (min_count ≤ (p.2 : Int)) && decide ((p.2 : Int) ≤ max_count))

/-- A decoded image, reduced to its pixel-grid dimensions: the only data the
cropping and resizing arithmetic of main reads or writes. -/
structure Img where
  w : Nat
  h : Nat
deriving DecidableEq

/-- A crop box in PIL order (left, upper, right, lower). -/
structure Box where
  left : Nat
  top : Nat
  right : Nat
  bottom : Nat
deriving DecidableEq

/-- The centered crop box computed by main (lines 105-109): min_side is the
smaller dimension and the offsets are floor divisions by 2 (Nat subtraction
agrees with Python here because min_side never exceeds either side). -/
def centerBox (img : Img) : Box :=
  let min_side := min img.w img.h
  let left := (img.w - min_side) / 2
  let top := (img.h - min_side) / 2
  ⟨left, top, left + min_side, top + min_side⟩

/-- PIL Image.crop on an in-bounds box returns an image of width
right - left and height bottom - top. -/
def crop (box : Box) : Img :=
  ⟨box.right - box.left, box.bottom - box.top⟩

/-- PIL Image.resize to an explicit (width, height) pair: the result has
exactly the requested dimensions, whatever the input was. -/
def resize (_img : Img) (wh : Nat × Nat) : Img :=
  ⟨wh.1, wh.2⟩

/-- The Canonicalizer of main (lines 103-110): center-crop to a square of
the smaller side, then resize to image_size by image_size. -/
def canonicalize (img : Img) (image_size : Nat) : Img :=
  resize (crop (centerBox img)) (image_size, image_size)

/-- Index of the last occurrence of a character in a character list. -/
def lastIdxOf (c : Char) (l : List Char) : Option Nat :=
  ((List.range l.length).filter (fun i => decide (l.get? i = some c))).getLast?

/-- Model of os.path.splitext(p)[0] for POSIX paths: drop the extension starting at
the last dot after the last slash, unless every character between the slash
and that dot is itself a dot (leading dots of the basename never start an
extension). Mirrors CPython genericpath._splitext. -/
def splitextRoot (p : String) : String :=
  let l := p.toList
  let sepIndex : Int := match lastIdxOf '/' l with
    | none => -1
    | some i => (i : Int)
  match lastIdxOf '.' l with
  | none => p
  | some dotIndex =>
      if sepIndex < (dotIndex : Int) then
        if (List.range dotIndex).any (fun i =>
            decide (sepIndex < (i : Int)) && !(decide (l.get? i = some '.')))
        then String.mk (l.take dotIndex)
        else p
      else p

/-- The destination filename built by main (lines 97-98):
f-string count underscore base_name dot jpg, with base_name the source
filename after splitext. -/
def dst_filename (count : Nat) (src_filename : String) : String :=
  toString count ++ "_" ++ splitextRoot src_filename ++ ".jpg"

/-- Model of os.path.join for two POSIX path components: an absolute second
component wins, otherwise the components are joined with a single slash. -/
def joinPath (d f : String) : String :=
  if f.toList.head? = some '/' then f
  else if d = "" ∨ d.toList.getLast? = some '/' then d ++ f
  else d ++ "/" ++ f

/-- First-match lookup of a filename in the id_to_filename mapping,
modelling id_to_filename.get(img_id). -/
def lookupName : List (Nat × String) → Nat → Option String
  | [], _ => none
  | (k, v) :: rest, i => if k = i then some v else lookupName rest i

/-- The external world seen by the per-item loop of main: whether a source
path exists, what Image.open followed by convert RGB yields for a source
path (the decoded image or a raised exception message), and whether saving
to a destination path succeeds or raises. -/
structure Env where
  fsExists : String → Bool
  load : String → Except String Img
  save : String → Img → Except String Unit

/-- What happens to one selected (image id, count) pair in the loop body of
main (lines 87-114): a silent skip when the id has no filename, a warned
skip when the source path does not exist, a copy when every step succeeds,
or a caught failure carrying the source path and the exception message. -/
inductive ItemOutcome where
  | skippedNoFilename
  | skippedMissing (src_path : String)
  | copiedOk (dst_path : String)
  | failed (src_path : String) (msg : String)
deriving DecidableEq

/-- The loop body of main for one item: resolve the filename, test the
source path, build the destination path, then load, canonicalize and save
inside the try block. -/
def processItem (env : Env) (coco_img_dir output_dir : String)
    (id_to_filename : List (Nat × String)) (image_size : Nat)
    (item : Nat × Nat) : ItemOutcome :=
  match lookupName id_to_filename item.1 with
  | none => ItemOutcome.skippedNoFilename
  | some src_filename =>
      let src_path := joinPath coco_img_dir src_filename
      if env.fsExists src_path then
        let dst_path := joinPath output_dir (dst_filename item.2 src_filename)
        match env.load src_path with
        | Except.error e => ItemOutcome.failed src_path e
        | Except.ok img =>
            match env.save dst_path (canonicalize img image_size) with
            | Except.error e => ItemOutcome.failed src_path e
            | Except.ok _ => ItemOutcome.copiedOk dst_path
      else ItemOutcome.skippedMissing src_path

/-- One line of diagnostic output of the loop: the WARNING print for a
missing source path or the ERROR print for a caught exception. -/
inductive LogLine where
  | warning (src_path : String)
  | error (src_path : String) (msg : String)
deriving DecidableEq

/-- The mutable state of the loop of main: the copied counter and the
diagnostics printed so far, in order. -/
structure LoopState where
  copied : Nat
  log : List LogLine
deriving DecidableEq

/-- State update for one item: continue silently, print a warning, print an
error, or increment copied. -/
def stepItem (env : Env) (coco_img_dir output_dir : String)
    (id_to_filename : List (Nat × String)) (image_size : Nat)
    (st : LoopState) (item : Nat × Nat) : LoopState :=
  match processItem env coco_img_dir output_dir id_to_filename image_size
      item with
  | ItemOutcome.skippedNoFilename => st
  | ItemOutcome.skippedMissing p =>
      { st with log := st.log ++ [LogLine.warning p] }
  | ItemOutcome.failed p e =>
      { st with log := st.log ++ [LogLine.error p e] }
  | ItemOutcome.copiedOk _ =>
      { st with copied := st.copied + 1 }

/-- The whole per-item loop of main (lines 86-114) over the selected
items, starting with copied = 0 and an empty log. -/
def runLoop (env : Env) (coco_img_dir output_dir : String)
    (id_to_filename : List (Nat × String)) (image_size : Nat)
    (selected : List (Nat × Nat)) : LoopState :=
  selected.foldl (stepItem env coco_img_dir output_dir id_to_filename
    image_size) ⟨0, []⟩

/-- The report the specification asks the Dataset Materializer to return. -/
structure MaterializeReport where
  attempted : Nat
  copied : Nat
  skipped_missing : Nat
  failed : Nat
deriving DecidableEq

def isCopied : ItemOutcome → Bool
  | ItemOutcome.copiedOk _ => true
  | _ => false

def isFailedOutcome : ItemOutcome → Bool
  | ItemOutcome.failed _ _ => true
  | _ => false

/-- Outcomes the specification counts as skipped_missing: a source that is
absent from id_to_filename or whose file does not exist. -/
def isMissingSource : ItemOutcome → Bool
  | ItemOutcome.skippedNoFilename => true
  | ItemOutcome.skippedMissing _ => true
  | _ => false

def isWarningLine : LogLine → Bool
  | LogLine.warning _ => true
  | _ => false

def isErrorLine : LogLine → Bool
  | LogLine.error _ _ => true
  | _ => false

/-- The report observable from a run of the code: the copied counter, the
number of selected items, and the printed WARNING and ERROR lines. -/
def code_report (env : Env) (coco_img_dir output_dir : String)
    (id_to_filename : List (Nat × String)) (image_size : Nat)
    (selected : List (Nat × Nat)) : MaterializeReport :=
  let st := runLoop env coco_img_dir output_dir id_to_filename image_size
    selected
  { attempted := selected.length
  , copied := st.copied
  , skipped_missing := (st.log.filter isWarningLine).length
  , failed := (st.log.filter isErrorLine).length }

/-- Modelled from the spec: the MaterializeReport contract of section 4.5,
in which skipped_missing counts every item whose source is missing or
unresolvable, including an identifier absent from id_to_filename. -/
def spec_report (env : Env) (coco_img_dir output_dir : String)
    (id_to_filename : List (Nat × String)) (image_size : Nat)
    (selected : List (Nat × Nat)) : MaterializeReport :=
  let outcomes := selected.map (processItem env coco_img_dir output_dir
    id_to_filename image_size)
  { attempted := selected.length
  , copied := (outcomes.filter isCopied).length
  , skipped_missing := (outcomes.filter isMissingSource).length
  , failed := (outcomes.filter isFailedOutcome).length }

/-- An environment in which every source path exists, every load decodes to
an 8 by 8 image and every save succeeds. -/
def okEnv : Env :=
  { fsExists := fun _ => true
  , load := fun _ => Except.ok ⟨8, 8⟩
  , save := fun _ _ => Except.ok () }

/-- C1: for every image id present in the InstanceCount mapping produced by
the counting pass, the stored value equals the number of annotation records
with that image_id whose iscrowd field is falsy (default false) and whose
area (default 0) is at least min_area. -/
theorem instanceCount_value_eq_qualifying (min_area : ℚ)
    (anns : List AnnotationRecord) (i : Nat)
    (_h : hasId (image_instance_count min_area anns) i = true) :
    getCount (image_instance_count min_area anns) i =
      countQualifying min_area anns i :=
  getCount_image_instance_count min_area anns i

/-- Witness for C1, the end-to-end scenario of the spec: image 42 with
areas 2000, 1500 and 500 at min_area 1024 stores the value 2. -/
theorem instanceCount_value_eq_qualifying_witness :
    hasId (image_instance_count 1024
      [⟨42, none, some 2000⟩, ⟨42, none, some 1500⟩, ⟨42, none, some 500⟩])
      42 = true ∧
    getCount (image_instance_count 1024
      [⟨42, none, some 2000⟩, ⟨42, none, some 1500⟩, ⟨42, none, some 500⟩])
      42 =
      countQualifying 1024
        [⟨42, none, some 2000⟩, ⟨42, none, some 1500⟩, ⟨42, none, some 500⟩]
        42 ∧
    countQualifying 1024
      [⟨42, none, some 2000⟩, ⟨42, none, some 1500⟩, ⟨42, none, some 500⟩]
      42 = 2 :=
  ⟨by decide,
   instanceCount_value_eq_qualifying 1024
     [⟨42, none, some 2000⟩, ⟨42, none, some 1500⟩, ⟨42, none, some 500⟩]
     42 (by decide),
   by decide⟩

/-- C5: an image all of whose annotations are crowd-flagged or have area
below min_area is absent from the InstanceCount mapping, and every stored
value is at least 1. -/
theorem instanceCount_absent_or_positive (min_area : ℚ)
    (anns : List AnnotationRecord) (i : Nat) :
    ((∀ a ∈ anns, a.image_id = i →
        a.iscrowd.getD 0 ≠ 0 ∨ a.area.getD 0 < min_area) →
      hasId (image_instance_count min_area anns) i = false) ∧
    (hasId (image_instance_count min_area anns) i = true →
      1 ≤ getCount (image_instance_count min_area anns) i) := by
  constructor
  · intro hall
    have hz : countQualifying min_area anns i = 0 := by
      unfold countQualifying
      rw [List.length_eq_zero, List.filter_eq_nil_iff]
      intro a ha
      unfold qualifiesFor
      simp only [Bool.and_eq_true, decide_eq_true_eq, not_and]
      intro hid
      rcases hall a ha hid.1 with hc | harea
      · exact absurd hid.2 hc
      · exact not_le.mpr harea
    rcases hb : hasId (image_instance_count min_area anns) i with _ | _
    · rfl
    · exact absurd ((hasId_image_instance_count min_area anns i).mp hb)
        (by omega)
  · intro hb
    have := (hasId_image_instance_count min_area anns i).mp hb
    rw [getCount_image_instance_count]
    omega

/-- Witness for C5: image 7 has only a crowd annotation and a tiny one, so
it is absent; image 3 has a qualifying annotation, so its value is at
least 1. -/
theorem instanceCount_absent_or_positive_witness :
    hasId (image_instance_count 1024
      [⟨7, some 1, some 5000⟩, ⟨7, none, some 10⟩]) 7 = false ∧
    1 ≤ getCount (image_instance_count 1024 [⟨3, none, some 2000⟩]) 3 :=
  ⟨(instanceCount_absent_or_positive 1024
      [⟨7, some 1, some 5000⟩, ⟨7, none, some 10⟩] 7).1 (by decide),
   (instanceCount_absent_or_positive 1024 [⟨3, none, some 2000⟩] 3).2
     (by decide)⟩

/-- C9: when min_area is zero or negative, an annotation with falsy iscrowd
and an absent or zero area passes the filter and is counted: the guarantee
that area-less records are skipped holds only for positive min_area. -/
theorem zero_min_area_counts_arealess (min_area : ℚ) (a : AnnotationRecord)
    (hm : min_area ≤ 0) (hc : a.iscrowd.getD 0 = 0)
    (ha : a.area = none ∨ a.area = some 0) :
    qualifies min_area a = true ∧
      getCount (image_instance_count min_area [a]) a.image_id = 1 := by
  have harea : a.area.getD 0 = 0 := by
    rcases ha with h | h <;> simp [h]
  have hq : qualifies min_area a = true := by
    rw [qualifies_eq_true_iff, harea]
    exact ⟨hc, hm⟩
  refine ⟨hq, ?_⟩
  rw [getCount_image_instance_count]
  unfold countQualifying qualifiesFor
  simp [hc, harea, hm]

/-- Witness for C9: with min_area 0, a record with no area field at all is
counted for its image. -/
theorem zero_min_area_counts_arealess_witness :
    qualifies 0 ⟨5, none, none⟩ = true ∧
      getCount (image_instance_count 0 [⟨5, none, none⟩])
        (AnnotationRecord.image_id ⟨5, none, none⟩) = 1 :=
  zero_min_area_counts_arealess 0 ⟨5, none, none⟩ (by decide) (by decide)
    (Or.inl rfl)

/-- C3: the Canonicalizer crops at the centered offsets, the crop is a
min_side square, and the output is always image_size by image_size; in
particular 640 by 480 and 480 by 640 both canonicalize to 256 by 256 at
target 256, and a 100 by 200 input uses vertical offset 50. -/
theorem canonicalize_center_square (img : Img) (image_size : Nat) :
    (centerBox img).left = (img.w - min img.w img.h) / 2 ∧
    (centerBox img).top = (img.h - min img.w img.h) / 2 ∧
    crop (centerBox img) = ⟨min img.w img.h, min img.w img.h⟩ ∧
    canonicalize img image_size = ⟨image_size, image_size⟩ ∧
    canonicalize ⟨640, 480⟩ 256 = ⟨256, 256⟩ ∧
    canonicalize ⟨480, 640⟩ 256 = ⟨256, 256⟩ ∧
    (centerBox ⟨100, 200⟩).top = 50 := by
  refine ⟨rfl, rfl, ?_, rfl, rfl, rfl, rfl⟩
  simp [centerBox, crop]

/-- C4: the Range Selector keeps exactly the entries, key and value
unchanged, whose count lies in the inclusive range, and an inverted range
selects nothing rather than raising an error. -/
theorem selected_images_exact (m : List (Nat × Nat)) (lo hi : Int) :
    (∀ p : Nat × Nat, p ∈ selected_images m lo hi ↔
        p ∈ m ∧ lo ≤ (p.2 : Int) ∧ (p.2 : Int) ≤ hi) ∧
    (hi < lo → selected_images m lo hi = []) := by
  constructor
  · intro p
    unfold selected_images
    rw [List.mem_filter]
    simp
  · intro hlt
    unfold selected_images
    rw [List.filter_eq_nil_iff]
    intro p _
    simp only [Bool.and_eq_true, decide_eq_true_eq, not_and]
    intro hlo hhi
    omega

/-- Witness for C4: with min_count 5 and max_count 2 nothing is selected,
and an in-range entry is a member. -/
theorem selected_images_exact_witness :
    selected_images [(1, 3)] 5 2 = [] ∧
    ((1, 3) ∈ selected_images [(1, 3)] 1 7 ↔
      (1, 3) ∈ [(1, 3)] ∧ (1 : Int) ≤ 3 ∧ (3 : Int) ≤ 7) :=
  ⟨(selected_images_exact [(1, 3)] 5 2).2 (by decide),
   (selected_images_exact [(1, 3)] 1 7).1 (1, 3)⟩

/-- C8: the Range Selector is idempotent: selecting again with the same
bounds from its own output changes nothing. -/
theorem selected_images_idempotent (m : List (Nat × Nat))
    (lo hi : Int) :
    selected_images (selected_images m lo hi) lo hi =
      selected_images m lo hi := by
  unfold selected_images
  rw [List.filter_filter]
  simp

/-- Outcomes whose source file does not exist on disk: the only skipped
items the code announces with a WARNING line. -/
def isMissingFile : ItemOutcome → Bool
  | ItemOutcome.skippedMissing _ => true
  | _ => false

/-- The outcomes of the selected items in loop order. -/
def outcomesOf (env : Env) (coco_img_dir output_dir : String)
    (id_to_filename : List (Nat × String)) (image_size : Nat)
    (selected : List (Nat × Nat)) : List ItemOutcome :=
  selected.map (processItem env coco_img_dir output_dir id_to_filename
    image_size)

lemma stepItem_decompose (env : Env) (d o : String)
    (idf : List (Nat × String)) (sz : Nat) (st : LoopState)
    (item : Nat × Nat) :
    stepItem env d o idf sz st item =
      ⟨st.copied + (stepItem env d o idf sz ⟨0, []⟩ item).copied,
       st.log ++ (stepItem env d o idf sz ⟨0, []⟩ item).log⟩ := by
  cases h : processItem env d o idf sz item <;> simp [stepItem, h]

lemma foldl_stepItem_from (env : Env) (d o : String)
    (idf : List (Nat × String)) (sz : Nat) (sel : List (Nat × Nat))
    (st : LoopState) :
    sel.foldl (stepItem env d o idf sz) st =
      ⟨st.copied + (sel.foldl (stepItem env d o idf sz) ⟨0, []⟩).copied,
       st.log ++ (sel.foldl (stepItem env d o idf sz) ⟨0, []⟩).log⟩ := by
  induction sel generalizing st with
  | nil => simp
  | cons a sel ih =>
      rw [List.foldl_cons, List.foldl_cons, ih (stepItem env d o idf sz st a),
        ih (stepItem env d o idf sz ⟨0, []⟩ a),
        stepItem_decompose env d o idf sz st a]
      simp [Nat.add_assoc, List.append_assoc]

lemma runLoop_copied (env : Env) (d o : String) (idf : List (Nat × String))
    (sz : Nat) (sel : List (Nat × Nat)) :
    (runLoop env d o idf sz sel).copied =
      ((outcomesOf env d o idf sz sel).filter isCopied).length := by
  induction sel with
  | nil => simp [runLoop, outcomesOf]
  | cons a sel ih =>
      unfold runLoop at ih ⊢
      rw [List.foldl_cons, foldl_stepItem_from, ih]
      unfold outcomesOf at ih ⊢
      rw [List.map_cons, List.filter_cons]
      cases h : processItem env d o idf sz a <;>
        simp [stepItem, h, isCopied, Nat.add_comm]

lemma runLoop_log_filtered (env : Env) (d o : String)
    (idf : List (Nat × String)) (sz : Nat) (sel : List (Nat × Nat)) :
    ((runLoop env d o idf sz sel).log.filter isWarningLine).length =
      ((outcomesOf env d o idf sz sel).filter isMissingFile).length ∧
    ((runLoop env d o idf sz sel).log.filter isErrorLine).length =
      ((outcomesOf env d o idf sz sel).filter isFailedOutcome).length := by
  induction sel with
  | nil => simp [runLoop, outcomesOf]
  | cons a sel ih =>
      unfold runLoop at ih ⊢
      rw [List.foldl_cons, foldl_stepItem_from]
      unfold outcomesOf at ih ⊢
      rw [List.map_cons, List.filter_cons, List.filter_cons]
      cases h : processItem env d o idf sz a <;>
        simp [stepItem, h, isMissingFile, isFailedOutcome, isWarningLine,
          isErrorLine, List.filter_append, ih.1, ih.2]

/-- C6 counterexample: an identifier absent from id_to_filename is a
missing-source item for the specification report, but the run of the code
skips it silently, so its observable skipped_missing count stays 0 and the
two reports disagree. -/
theorem materialize_report_counterexample :
    code_report okEnv "imgs" "out" [] 256 [(1, 2)] ≠
      spec_report okEnv "imgs" "out" [] 256 [(1, 2)] := by
  decide

/-- C6 amended: the observable report of a run has attempted equal to the
number of selected items, copied counting exactly the successful items,
failed counting exactly the items whose processing raised, and
skipped_missing counting exactly the items whose source file is absent on
disk; identifiers missing from id_to_filename are skipped silently and
counted nowhere. -/
theorem code_report_characterization (env : Env) (d o : String)
    (idf : List (Nat × String)) (sz : Nat) (sel : List (Nat × Nat)) :
    code_report env d o idf sz sel =
      { attempted := sel.length
      , copied := ((outcomesOf env d o idf sz sel).filter isCopied).length
      , skipped_missing :=
          ((outcomesOf env d o idf sz sel).filter isMissingFile).length
      , failed :=
          ((outcomesOf env d o idf sz sel).filter isFailedOutcome).length
      } := by
  unfold code_report
  rw [MaterializeReport.mk.injEq]
  exact ⟨rfl, runLoop_copied env d o idf sz sel,
    (runLoop_log_filtered env d o idf sz sel).1,
    (runLoop_log_filtered env d o idf sz sel).2⟩

/-- C7: a per-item failure is caught at the loop boundary, logged with the
failing source path and the exception message, and the items before and
after it are processed exactly as they would be on their own. -/
theorem per_item_failure_isolated (env : Env) (d o : String)
    (idf : List (Nat × String)) (sz : Nat) (pre post : List (Nat × Nat))
    (bad : Nat × Nat) (p e : String)
    (hbad : processItem env d o idf sz bad = ItemOutcome.failed p e) :
    (runLoop env d o idf sz (pre ++ bad :: post)).copied =
      (runLoop env d o idf sz pre).copied +
        (runLoop env d o idf sz post).copied ∧
    (runLoop env d o idf sz (pre ++ bad :: post)).log =
      (runLoop env d o idf sz pre).log ++
        LogLine.error p e :: (runLoop env d o idf sz post).log := by
  unfold runLoop
  rw [List.foldl_append, List.foldl_cons, foldl_stepItem_from,
    stepItem_decompose]
  simp [stepItem, hbad]

/-- An environment in which exactly one source file, imgs/b.jpg, fails to
decode and everything else succeeds. -/
def oneBadEnv : Env :=
  { fsExists := fun _ => true
  , load := fun s =>
      if s = "imgs/b.jpg" then Except.error "boom" else Except.ok ⟨8, 8⟩
  , save := fun _ _ => Except.ok () }

/-- Witness for C7: with three selected images of which the middle one
fails to decode, the other two are still copied and the failure is logged
with its path and message. -/
theorem per_item_failure_isolated_witness :
    processItem oneBadEnv "imgs" "out"
      [(1, "a.jpg"), (2, "b.jpg"), (3, "c.jpg")] 256 (2, 3) =
      ItemOutcome.failed "imgs/b.jpg" "boom" ∧
    ((runLoop oneBadEnv "imgs" "out"
        [(1, "a.jpg"), (2, "b.jpg"), (3, "c.jpg")] 256
        ([(1, 2)] ++ (2, 3) :: [(3, 4)])).copied =
      (runLoop oneBadEnv "imgs" "out"
        [(1, "a.jpg"), (2, "b.jpg"), (3, "c.jpg")] 256 [(1, 2)]).copied +
        (runLoop oneBadEnv "imgs" "out"
          [(1, "a.jpg"), (2, "b.jpg"), (3, "c.jpg")] 256 [(3, 4)]).copied ∧
      (runLoop oneBadEnv "imgs" "out"
        [(1, "a.jpg"), (2, "b.jpg"), (3, "c.jpg")] 256
        ([(1, 2)] ++ (2, 3) :: [(3, 4)])).log =
      (runLoop oneBadEnv "imgs" "out"
        [(1, "a.jpg"), (2, "b.jpg"), (3, "c.jpg")] 256 [(1, 2)]).log ++
        LogLine.error "imgs/b.jpg" "boom" ::
          (runLoop oneBadEnv "imgs" "out"
            [(1, "a.jpg"), (2, "b.jpg"), (3, "c.jpg")] 256 [(3, 4)]).log) :=
  ⟨by decide,
   per_item_failure_isolated oneBadEnv "imgs" "out"
     [(1, "a.jpg"), (2, "b.jpg"), (3, "c.jpg")] 256 [(1, 2)] [(3, 4)]
     (2, 3) "imgs/b.jpg" "boom" (by decide)⟩

/-- C2: a materialized item with selection count c and source filename f is
written under the filename built from c, the extension-stripped base of f
and the jpg suffix; in particular count 3 with source 000000001.jpg yields
exactly 3_000000001.jpg. -/
theorem output_filename_encodes_count (env : Env) (d o : String)
    (idf : List (Nat × String)) (sz : Nat) (i c : Nat) (f : String)
    (img : Img) (hf : lookupName idf i = some f)
    (hex : env.fsExists (joinPath d f) = true)
    (hload : env.load (joinPath d f) = Except.ok img)
    (hsave : env.save (joinPath o (dst_filename c f))
      (canonicalize img sz) = Except.ok ()) :
    processItem env d o idf sz (i, c) =
      ItemOutcome.copiedOk
        (joinPath o (toString c ++ "_" ++ splitextRoot f ++ ".jpg")) ∧
    dst_filename 3 "000000001.jpg" = "3_000000001.jpg" := by
  constructor
  · unfold processItem
    rw [hf]
    simp only [hex, if_true, hload]
    rw [hsave]
    rfl
  · decide

/-- Witness for C2: in an all-success environment, image id 1 selected with
count 3 and filename 000000001.jpg is written as out/3_000000001.jpg. -/
theorem output_filename_encodes_count_witness :
    processItem okEnv "imgs" "out" [(1, "000000001.jpg")] 256 (1, 3) =
      ItemOutcome.copiedOk
        (joinPath "out"
          (toString 3 ++ "_" ++ splitextRoot "000000001.jpg" ++ ".jpg")) ∧
    dst_filename 3 "000000001.jpg" = "3_000000001.jpg" :=
  output_filename_encodes_count okEnv "imgs" "out" [(1, "000000001.jpg")]
    256 1 3 "000000001.jpg" ⟨8, 8⟩ rfl rfl rfl rfl

/-- C10: two distinct selected identifiers with equal counts and source
filenames differing only in extension are written to the identical output
path, so the later save replaces the earlier file while the copied counter
counts both and no warning or error is logged. -/
theorem output_path_collision :
    processItem okEnv "imgs" "out" [(1, "a.jpg"), (2, "a.png")] 256
        (1, 3) = ItemOutcome.copiedOk "out/3_a.jpg" ∧
    processItem okEnv "imgs" "out" [(1, "a.jpg"), (2, "a.png")] 256
        (2, 3) = ItemOutcome.copiedOk "out/3_a.jpg" ∧
    runLoop okEnv "imgs" "out" [(1, "a.jpg"), (2, "a.png")] 256
        [(1, 3), (2, 3)] = ⟨2, []⟩ ∧
    (1 : Nat) ≠ 2 ∧ "a.jpg" ≠ "a.png" := by
  decide

end PrepareCoco
